import Mathlib

/-!
Verification of the Note Store of `src/app.py` (audio notes app).

The app stores text notes with vector embeddings in a vector index
(Qdrant) and retrieves them by similarity search.  We embed the DB-layer
functions of `src/app.py` (`assure_db_collection_sxists`,
`get_embedding`, `add_note_to_db`, `list_notes_from_db`,
`remove_note_from_db`, `remove_all_notes_from_db`) as pure functions
over an explicit index state, recording every external call in an event
trace.  The two external collaborators are parameters:

* the embedding provider is a function `String → Nat → Option (List ℚ)`
  (text and requested dimension to vector; `none` models a failing call);
* the vector index's similarity scoring is a function
  `Distance → List ℚ → List ℚ → ℚ` (the similarity induced by the
  collection's configured distance metric); the index itself (upsert,
  scroll, search, delete, drop) is modelled per its contract: `search`
  returns up to `limit` stored points with their similarity score in
  descending score order, `scroll` returns up to `limit` points in the
  index's native storage order, operations on a missing collection fail.

Machine reals (the float entries of embedding vectors) are modelled as
rationals; nothing proved here depends on arithmetic of the entries.
-/

namespace AudioNotes

/-- Distance metrics the vector index offers; the app only ever uses
cosine. -/
inductive Distance
  | cosine
  | dot
  | euclid
deriving DecidableEq, Repr

/-- A point stored in the vector index: id, vector, and the payload,
which for this app is always the single field `text` (we store that
field's value directly). -/
structure PointStruct where
  id : Nat
  vector : List ℚ
  payload : String
deriving DecidableEq, Repr

/-- The backing collection: dimensionality and distance metric fixed at
creation, plus the stored points in index-native order. -/
structure Collection where
  dim : Nat
  distance : Distance
  points : List PointStruct
deriving DecidableEq, Repr

/-- State of the vector index: `none` when the collection does not
exist. -/
abbrev IndexState := Option Collection

/-- A point returned by the index's similarity search: id, payload and
the similarity score. -/
structure ScoredPoint where
  id : Nat
  payload : String
  score : ℚ
deriving DecidableEq, Repr

/-- External calls issued by the app, recorded as a trace. -/
inductive Event
  | embedCall (text : String) (dim : Nat)
  | upsertCall (p : PointStruct)
  | scrollCall (limit : Nat)
  | searchCall (limit : Nat)
  | deleteCall (ids : List Nat)
  | createCollectionCall (dim : Nat) (d : Distance)
  | deleteCollectionCall
deriving DecidableEq, Repr

/-- Errors surfaced to the caller.  The spec's taxonomy names
`ValidationError` (empty text) and `ExternalServiceError` (an external
call fails). -/
inductive Err
  | validationError
  | externalServiceError
deriving DecidableEq, Repr

/-- The embedding provider: text and requested dimension to vector;
`none` models a failing provider call. -/
abbrev EmbedFn := String → Nat → Option (List ℚ)

/-- Similarity scoring used by the index's search, as induced by a
distance metric. -/
abbrev SimFn := Distance → List ℚ → List ℚ → ℚ

/-- `EMBEDDING_DIM = 3072` from `src/app.py`. -/
def EMBEDDING_DIM : Nat := 3072

/-- `QDRANT_COLLECTION_NAME = "notes"` from `src/app.py` (the model has
a single collection, so the name plays no further role). -/
def QDRANT_COLLECTION_NAME : String := "notes"

/-- Index contract: `collection_exists`. -/
def collection_exists (s : IndexState) : Bool :=
  s.isSome

/-- Index contract: `create_collection` with the given dimension and
metric; the new collection is empty. -/
def create_collection (dim : Nat) (d : Distance) : IndexState :=
  some ⟨dim, d, []⟩

/-- Insert-or-overwrite-by-id on the stored point list: an existing
point with the same id is replaced in place, otherwise the new point is
appended. -/
def upsertPoint (pts : List PointStruct) (p : PointStruct) : List PointStruct :=
  if pts.any (fun q => q.id = p.id) then
    pts.map (fun q => if q.id = p.id then p else q)
  else
    pts ++ [p]

/-- Index contract: `upsert` of a single point; fails (`none`) when the
collection does not exist. -/
def qdrant_upsert (p : PointStruct) (s : IndexState) : Option IndexState :=
  s.map (fun c => some { c with points := upsertPoint c.points p })

/-- Index contract: `scroll` returns up to `limit` points in the index's
native storage order; fails when the collection does not exist. -/
def qdrant_scroll (limit : Nat) (s : IndexState) : Option (List PointStruct) :=
  s.map (fun c => c.points.take limit)

/-- Insert a scored point into a list sorted by non-increasing score,
keeping it sorted. -/
def insertDesc (p : ScoredPoint) : List ScoredPoint → List ScoredPoint
  | [] => [p]
  | q :: qs => if q.score ≤ p.score then p :: q :: qs else q :: insertDesc p qs

/-- Sort scored points by non-increasing score (insertion sort). -/
def sortDesc : List ScoredPoint → List ScoredPoint
  | [] => []
  | p :: ps => insertDesc p (sortDesc ps)

/-- Index contract: `search` scores every stored point against the query
vector under the collection's configured distance metric and returns up
to `limit` of them in descending score order; fails when the collection
does not exist. -/
def qdrant_search (sim : SimFn) (qv : List ℚ) (limit : Nat)
    (s : IndexState) : Option (List ScoredPoint) :=
  s.map (fun c =>
    (sortDesc (c.points.map
      (fun p => ⟨p.id, p.payload, sim c.distance qv p.vector⟩))).take limit)

/-- Index contract: `delete` of the points with the given ids; absent
ids are simply not there to remove; fails when the collection does not
exist. -/
def qdrant_delete (ids : List Nat) (s : IndexState) : Option IndexState :=
  s.map (fun c => some { c with points := c.points.filter (fun p => ¬ ids.contains p.id) })

/-- Index contract: `delete_collection` drops the collection; no error
either way. -/
def qdrant_delete_collection (_s : IndexState) : IndexState :=
  none

/-- Session state of the app: the index plus the process-local id
counter `ss["id_counter"]`. -/
structure AppState where
  index : IndexState
  id_counter : Nat
deriving DecidableEq, Repr

/-- `assure_db_collection_sxists` from `src/app.py`: create the
collection with `EMBEDDING_DIM` and cosine distance when it does not
exist, do nothing otherwise. -/
def assure_db_collection_sxists (st : AppState) : AppState × List Event :=
  if collection_exists st.index then
    (st, [])
  else
    ({ st with index := create_collection EMBEDDING_DIM Distance.cosine },
     [Event.createCollectionCall EMBEDDING_DIM Distance.cosine])

/-- `get_embedding` from `src/app.py`: one provider call requesting
dimension `EMBEDDING_DIM`, together with the issued call event. -/
def get_embedding (emb : EmbedFn) (text : String) : Option (List ℚ) × Event :=
  (emb text EMBEDDING_DIM, Event.embedCall text EMBEDDING_DIM)

/-- `add_note_to_db` from `src/app.py`: compute the embedding of the
text, upsert one point with id `id_counter + 1`, the embedding as
vector, and the text as payload, then increment the counter.  A failing
embedding call or a failing upsert propagates as an error, after which
no later step runs.  There is no validation of the text. -/
def add_note_to_db (emb : EmbedFn) (note_text : String) (st : AppState) :
    Except Err AppState × List Event :=
  match get_embedding emb note_text with
  | (none, e) => (Except.error Err.externalServiceError, [e])
  | (some v, e) =>
    let p : PointStruct := ⟨st.id_counter + 1, v, note_text⟩
    match qdrant_upsert p st.index with
    | none => (Except.error Err.externalServiceError, [e, Event.upsertCall p])
    | some idx =>
      (Except.ok ⟨idx, st.id_counter + 1⟩, [e, Event.upsertCall p])

/-- The session state after a call to `add_note_to_db`: on an error the
exception propagates and the session state is unchanged. -/
def add_note_run (emb : EmbedFn) (note_text : String) (st : AppState) : AppState :=
  match (add_note_to_db emb note_text st).1 with
  | Except.ok st1 => st1
  | Except.error _ => st

/-- A note as returned by `list_notes_from_db`: id, text, and a score
that is present only on similarity-search results. -/
structure NoteView where
  id : Nat
  text : String
  score : Option ℚ
deriving DecidableEq, Repr

/-- The scroll branch of `list_notes_from_db`: up to 10 points in
index-native order, each with `score = none`. -/
def list_notes_scroll (st : AppState) : Except Err (List NoteView) × List Event :=
  match qdrant_scroll 10 st.index with
  | none => (Except.error Err.externalServiceError, [Event.scrollCall 10])
  | some pts =>
    (Except.ok (pts.map (fun p => ⟨p.id, p.payload, none⟩)), [Event.scrollCall 10])

/-- The search branch of `list_notes_from_db`: embed the query, then
nearest-neighbor search with limit 10, each result carrying the index's
similarity score. -/
def list_notes_search (emb : EmbedFn) (sim : SimFn) (q : String) (st : AppState) :
    Except Err (List NoteView) × List Event :=
  match get_embedding emb q with
  | (none, e) => (Except.error Err.externalServiceError, [e])
  | (some v, e) =>
    match qdrant_search sim v 10 st.index with
    | none => (Except.error Err.externalServiceError, [e, Event.searchCall 10])
    | some sps =>
      (Except.ok (sps.map (fun sp => ⟨sp.id, sp.payload, some sp.score⟩)),
       [e, Event.searchCall 10])

/-- `list_notes_from_db` from `src/app.py`: `if not query` (absent or
empty) scroll up to 10 notes with no score, otherwise embed the query
and search with limit 10. -/
def list_notes_from_db (emb : EmbedFn) (sim : SimFn) (query : Option String)
    (st : AppState) : Except Err (List NoteView) × List Event :=
  match query with
  | none => list_notes_scroll st
  | some q => if q = "" then list_notes_scroll st else list_notes_search emb sim q st

/-- `remove_note_from_db` from `src/app.py`: delete the point with the
given id; no error when the id is absent. -/
def remove_note_from_db (note_id : Nat) (st : AppState) :
    Except Err AppState × List Event :=
  match qdrant_delete [note_id] st.index with
  | none => (Except.error Err.externalServiceError, [Event.deleteCall [note_id]])
  | some idx => (Except.ok ⟨idx, st.id_counter⟩, [Event.deleteCall [note_id]])

/-- `remove_all_notes_from_db` from `src/app.py`: drop the whole
collection; the id counter is untouched by this function (the UI resets
it separately). -/
def remove_all_notes_from_db (st : AppState) : AppState × List Event :=
  (⟨qdrant_delete_collection st.index, st.id_counter⟩, [Event.deleteCollectionCall])

/-- Count the upsert calls in a trace. -/
def countUpserts (tr : List Event) : Nat :=
  tr.countP (fun e => match e with | Event.upsertCall _ => true | _ => false)

/-- The upsert calls of a trace, in order. -/
def upsertsOf (tr : List Event) : List PointStruct :=
  tr.filterMap (fun e => match e with | Event.upsertCall p => some p | _ => none)

/-- Every embedding request in the trace asks for dimension
`EMBEDDING_DIM`. -/
def embedDimsOk (tr : List Event) : Prop :=
  ∀ t d, Event.embedCall t d ∈ tr → d = EMBEDDING_DIM

/-- Run a sequence of `add_note_to_db` calls against the session state,
counting the successful ones. -/
def run_adds (emb : EmbedFn) : List String → AppState → AppState × Nat
  | [], st => (st, 0)
  | t :: ts, st =>
    let st1 := add_note_run emb t st
    let r := run_adds emb ts st1
    (r.1, (if (add_note_to_db emb t st).1.isOk then 1 else 0) + r.2)

section Lemmas

lemma mem_insertDesc {x p : ScoredPoint} {l : List ScoredPoint} :
    x ∈ insertDesc p l ↔ x = p ∨ x ∈ l := by
  induction l with
  | nil => simp [insertDesc]
  | cons q qs ih =>
    by_cases h : q.score ≤ p.score
    · simp [insertDesc, h]
    · simp [insertDesc, h, ih]
      tauto

lemma mem_sortDesc {x : ScoredPoint} {l : List ScoredPoint} :
    x ∈ sortDesc l ↔ x ∈ l := by
  induction l with
  | nil => simp [sortDesc]
  | cons p ps ih => simp [sortDesc, mem_insertDesc, ih]

lemma pairwise_insertDesc {p : ScoredPoint} {l : List ScoredPoint}
    (h : l.Pairwise (fun a b => b.score ≤ a.score)) :
    (insertDesc p l).Pairwise (fun a b => b.score ≤ a.score) := by
  induction l with
  | nil => simp [insertDesc]
  | cons q qs ih =>
    rcases List.pairwise_cons.mp h with ⟨hq, hqs⟩
    by_cases hle : q.score ≤ p.score
    · simp only [insertDesc, if_pos hle]
      refine List.pairwise_cons.mpr ⟨?_, h⟩
      intro b hb
      rcases List.mem_cons.mp hb with hb1 | hb1
      · simpa [hb1] using hle
      · exact le_trans (hq b hb1) hle
    · simp only [insertDesc, if_neg hle]
      refine List.pairwise_cons.mpr ⟨?_, ih hqs⟩
      intro b hb
      rcases mem_insertDesc.mp hb with hb1 | hb1
      · subst hb1
        exact le_of_not_le hle
      · exact hq b hb1

lemma pairwise_sortDesc (l : List ScoredPoint) :
    (sortDesc l).Pairwise (fun a b => b.score ≤ a.score) := by
  induction l with
  | nil => simp [sortDesc]
  | cons p ps ih => exact pairwise_insertDesc ih

lemma mem_upsertPoint_self (pts : List PointStruct) (p : PointStruct) :
    p ∈ upsertPoint pts p := by
  unfold upsertPoint
  by_cases h : pts.any (fun q => q.id = p.id)
  · rw [if_pos h]
    rcases List.any_eq_true.mp h with ⟨q, hq, hid⟩
    exact List.mem_map.mpr ⟨q, hq, by simp [of_decide_eq_true hid]⟩
  · rw [if_neg h]
    simp

lemma length_upsertPoint_le (pts : List PointStruct) (p : PointStruct) :
    (upsertPoint pts p).length ≤ pts.length + 1 := by
  unfold upsertPoint
  by_cases h : pts.any (fun q => q.id = p.id)
  · rw [if_pos h]
    simp
  · rw [if_neg h]
    simp

lemma add_note_run_counter (emb : EmbedFn) (text : String) (st : AppState) :
    (add_note_run emb text st).id_counter =
      st.id_counter + (if (add_note_to_db emb text st).1.isOk then 1 else 0) := by
  rcases hv : emb text EMBEDDING_DIM with _ | v
  · simp [add_note_run, add_note_to_db, get_embedding, hv, Except.isOk, Except.toBool]
  · rcases hu : qdrant_upsert ⟨st.id_counter + 1, v, text⟩ st.index with _ | idx
    · simp [add_note_run, add_note_to_db, get_embedding, hv, hu,
        Except.isOk, Except.toBool]
    · simp [add_note_run, add_note_to_db, get_embedding, hv, hu,
        Except.isOk, Except.toBool]

lemma add_note_success (emb : EmbedFn) (text : String) (st : AppState)
    (c : Collection) (v : List ℚ) (hc : st.index = some c)
    (hv : emb text EMBEDDING_DIM = some v) :
    add_note_to_db emb text st =
      (Except.ok ⟨some { c with
          points := upsertPoint c.points ⟨st.id_counter + 1, v, text⟩ },
          st.id_counter + 1⟩,
       [Event.embedCall text EMBEDDING_DIM,
        Event.upsertCall ⟨st.id_counter + 1, v, text⟩]) := by
  simp [add_note_to_db, get_embedding, hv, qdrant_upsert, hc]

end Lemmas

/-- A concrete embedding provider for witnesses: it answers every
request with the all-zero vector of the requested dimension, so it
respects the provider contract (output length equals the requested
dimension). -/
def embConst : EmbedFn := fun _ d => some (List.replicate d 0)

/-- A concrete similarity function for witnesses. -/
def simZero : SimFn := fun _ _ _ => 0

/-- Claim C2: a successful `add_note(text)` computes the embedding of
`text`, upserts exactly one point whose id is `id_counter + 1`, whose
vector is that embedding and whose payload is the text, and advances the
id counter by one.  The conclusion gives the full result: the new state
and the exact trace (one embedding request followed by one upsert). -/
theorem add_note_success_characterization (emb : EmbedFn) (text : String)
    (st : AppState) (c : Collection) (v : List ℚ) (hc : st.index = some c)
    (hv : emb text EMBEDDING_DIM = some v) :
    add_note_to_db emb text st =
      (Except.ok ⟨some { c with
          points := upsertPoint c.points ⟨st.id_counter + 1, v, text⟩ },
          st.id_counter + 1⟩,
       [Event.embedCall text EMBEDDING_DIM,
        Event.upsertCall ⟨st.id_counter + 1, v, text⟩]) :=
  add_note_success emb text st c v hc hv

/-- Witness for C2: adding "buy milk" to an empty collection at counter
0 upserts the point with id 1 and the requested embedding and sets the
counter to 1. -/
theorem add_note_success_characterization_witness :
    add_note_to_db embConst "buy milk" ⟨some ⟨3072, Distance.cosine, []⟩, 0⟩ =
      (Except.ok ⟨some ⟨3072, Distance.cosine,
          upsertPoint [] ⟨1, List.replicate 3072 0, "buy milk"⟩⟩, 1⟩,
       [Event.embedCall "buy milk" EMBEDDING_DIM,
        Event.upsertCall ⟨1, List.replicate 3072 0, "buy milk"⟩]) :=
  add_note_success_characterization embConst "buy milk"
    ⟨some ⟨3072, Distance.cosine, []⟩, 0⟩ ⟨3072, Distance.cosine, []⟩
    (List.replicate 3072 0) rfl rfl

/-- Counterexample to claim C1 as stated: called with the empty text on
an empty collection, `add_note_to_db` does not fail at all (so in
particular not with `ValidationError`) and it does issue exactly one
upsert call, writing a point whose payload is the empty text. -/
theorem add_empty_text_counterexample :
    (add_note_to_db embConst "" ⟨some ⟨3072, Distance.cosine, []⟩, 0⟩).1.isOk
      = true ∧
    countUpserts
      (add_note_to_db embConst "" ⟨some ⟨3072, Distance.cosine, []⟩, 0⟩).2
      = 1 ∧
    upsertsOf
      (add_note_to_db embConst "" ⟨some ⟨3072, Distance.cosine, []⟩, 0⟩).2
      = [⟨1, List.replicate 3072 0, ""⟩] :=
  ⟨rfl, rfl, rfl⟩

/-- Claim C1 as amended: `add_note_to_db` performs no validation of the
text.  Called with the empty text (collection present, provider
reachable) it succeeds like for any other text: it embeds the empty
string and upserts one point whose payload is the empty text; no
`ValidationError` is raised and a write to the index does occur.  (The
empty-text guard exists only in the UI, which disables the save action
while the text field is empty.) -/
theorem add_empty_text_not_validated (emb : EmbedFn) (st : AppState)
    (c : Collection) (v : List ℚ) (hc : st.index = some c)
    (hv : emb "" EMBEDDING_DIM = some v) :
    (add_note_to_db emb "" st).1 =
      Except.ok ⟨some { c with
          points := upsertPoint c.points ⟨st.id_counter + 1, v, ""⟩ },
          st.id_counter + 1⟩ ∧
    upsertsOf (add_note_to_db emb "" st).2 = [⟨st.id_counter + 1, v, ""⟩] := by
  have h := add_note_success emb "" st c v hc hv
  rw [h]
  exact ⟨rfl, rfl⟩

/-- Witness for the amended C1: the empty text is stored like any other
at a concrete state. -/
theorem add_empty_text_not_validated_witness :
    (add_note_to_db embConst "" ⟨some ⟨3072, Distance.cosine, []⟩, 4⟩).1 =
      Except.ok ⟨some ⟨3072, Distance.cosine,
          upsertPoint [] ⟨5, List.replicate 3072 0, ""⟩⟩, 5⟩ ∧
    upsertsOf (add_note_to_db embConst "" ⟨some ⟨3072, Distance.cosine, []⟩, 4⟩).2
      = [⟨5, List.replicate 3072 0, ""⟩] :=
  add_empty_text_not_validated embConst ⟨some ⟨3072, Distance.cosine, []⟩, 4⟩
    ⟨3072, Distance.cosine, []⟩ (List.replicate 3072 0) rfl rfl

/-- Claim C4: with an absent or empty query, `list_notes_from_db`
returns exactly the first up-to-10 stored points in index-native order,
each rendered with its id and text and with no score. -/
theorem list_notes_no_query (emb : EmbedFn) (sim : SimFn)
    (query : Option String) (st : AppState) (c : Collection)
    (hq : query = none ∨ query = some "") (hc : st.index = some c) :
    ∃ notes, (list_notes_from_db emb sim query st).1 = Except.ok notes ∧
      notes = (c.points.take 10).map (fun p => ⟨p.id, p.payload, none⟩) ∧
      notes.length ≤ 10 ∧
      ∀ n ∈ notes, n.score = none := by
  refine ⟨(c.points.take 10).map (fun p => ⟨p.id, p.payload, none⟩), ?_, rfl, ?_, ?_⟩
  · rcases hq with hq | hq <;>
      simp [hq, list_notes_from_db, list_notes_scroll, qdrant_scroll, hc]
  · simp [List.length_take]
  · intro n hn
    rcases List.mem_map.mp hn with ⟨p, _, hp⟩
    simpa using congrArg NoteView.score hp.symm

/-- Witness for C4: listing a two-note collection with an empty query
yields both notes, in storage order, with no scores. -/
theorem list_notes_no_query_witness :
    ∃ notes,
      (list_notes_from_db embConst simZero (some "")
        ⟨some ⟨3072, Distance.cosine, [⟨1, [], "a"⟩, ⟨2, [], "b"⟩]⟩, 2⟩).1 =
        Except.ok notes ∧
      notes = (([⟨1, [], "a"⟩, ⟨2, [], "b"⟩] :
          List PointStruct).take 10).map
          (fun p => (⟨p.id, p.payload, none⟩ : NoteView)) ∧
      notes.length ≤ 10 ∧
      ∀ n ∈ notes, n.score = none :=
  list_notes_no_query embConst simZero (some "")
    ⟨some ⟨3072, Distance.cosine, [⟨1, [], "a"⟩, ⟨2, [], "b"⟩]⟩, 2⟩
    ⟨3072, Distance.cosine, [⟨1, [], "a"⟩, ⟨2, [], "b"⟩]⟩ (Or.inr rfl) rfl

/-- Claim C3: with a present (non-empty) query, `list_notes_from_db`
requests the query's embedding, searches the index, and returns at most
10 notes sorted by non-increasing score, where every note is a stored
point scored by the index under the collection's configured distance
metric. -/
theorem list_notes_query_search (emb : EmbedFn) (sim : SimFn) (q : String)
    (st : AppState) (c : Collection) (v : List ℚ) (hq : q ≠ "")
    (hv : emb q EMBEDDING_DIM = some v) (hc : st.index = some c) :
    ∃ notes,
      (list_notes_from_db emb sim (some q) st).1 = Except.ok notes ∧
      Event.embedCall q EMBEDDING_DIM ∈ (list_notes_from_db emb sim (some q) st).2 ∧
      notes.length ≤ 10 ∧
      notes.Pairwise (fun a b => ∀ x y, a.score = some x → b.score = some y → y ≤ x) ∧
      ∀ n ∈ notes, ∃ p ∈ c.points, n.id = p.id ∧ n.text = p.payload ∧
        n.score = some (sim c.distance v p.vector) := by
  have hrun : list_notes_from_db emb sim (some q) st =
      (Except.ok (((sortDesc (c.points.map
          (fun p => ⟨p.id, p.payload, sim c.distance v p.vector⟩))).take 10).map
          (fun sp => ⟨sp.id, sp.payload, some sp.score⟩)),
       [Event.embedCall q EMBEDDING_DIM, Event.searchCall 10]) := by
    simp [list_notes_from_db, hq, list_notes_search, get_embedding, hv,
      qdrant_search, hc]
  refine ⟨_, by rw [hrun], by rw [hrun]; exact List.mem_cons_self _ _, ?_, ?_, ?_⟩
  · simp [List.length_take]
  · have hsorted := (pairwise_sortDesc (c.points.map
        (fun p => ⟨p.id, p.payload, sim c.distance v p.vector⟩))).sublist
      (List.take_sublist 10 _)
    refine (List.pairwise_map).mpr (hsorted.imp ?_)
    intro a b hab x y hx hy
    rw [Option.some_inj] at hx hy
    rw [← hx, ← hy]
    exact hab
  · intro n hn
    rcases List.mem_map.mp hn with ⟨sp, hsp, hns⟩
    have hsp1 : sp ∈ sortDesc (c.points.map
        (fun p => ⟨p.id, p.payload, sim c.distance v p.vector⟩)) :=
      List.mem_of_mem_take hsp
    rcases List.mem_map.mp (mem_sortDesc.mp hsp1) with ⟨p, hp, hpe⟩
    exact ⟨p, hp, by rw [← hns, ← hpe], by rw [← hns, ← hpe], by rw [← hns, ← hpe]⟩

/-- Witness for C3: searching "groceries" against a one-note collection
returns that note with the index's score. -/
theorem list_notes_query_search_witness :
    ∃ notes,
      (list_notes_from_db embConst simZero (some "groceries")
        ⟨some ⟨3072, Distance.cosine, [⟨1, [], "buy milk"⟩]⟩, 1⟩).1 =
        Except.ok notes ∧
      Event.embedCall "groceries" EMBEDDING_DIM ∈
        (list_notes_from_db embConst simZero (some "groceries")
          ⟨some ⟨3072, Distance.cosine, [⟨1, [], "buy milk"⟩]⟩, 1⟩).2 ∧
      notes.length ≤ 10 ∧
      notes.Pairwise (fun a b => ∀ x y, a.score = some x → b.score = some y → y ≤ x) ∧
      ∀ n ∈ notes, ∃ p ∈ ([⟨1, [], "buy milk"⟩] : List PointStruct),
        n.id = p.id ∧ n.text = p.payload ∧
        n.score = some (simZero Distance.cosine (List.replicate 3072 0) p.vector) :=
  list_notes_query_search embConst simZero "groceries"
    ⟨some ⟨3072, Distance.cosine, [⟨1, [], "buy milk"⟩]⟩, 1⟩
    ⟨3072, Distance.cosine, [⟨1, [], "buy milk"⟩]⟩
    (List.replicate 3072 0) (by decide) rfl rfl

/-- Claim C10 (implicit): every embedding request — for the stored
vector of an add and for the query vector of a search alike — asks for
dimension `EMBEDDING_DIM = 3072`, the collection is only ever created
with that same dimension, and under the provider contract (the returned
vector has the requested length) every vector upserted into the
collection has that dimensionality. -/
theorem embedding_requests_use_collection_dim (emb : EmbedFn) (sim : SimFn)
    (text : String) (query : Option String) (st : AppState)
    (hcontract : ∀ t d w, emb t d = some w → w.length = d) :
    embedDimsOk (add_note_to_db emb text st).2 ∧
    embedDimsOk (list_notes_from_db emb sim query st).2 ∧
    (∀ p, Event.upsertCall p ∈ (add_note_to_db emb text st).2 →
      p.vector.length = EMBEDDING_DIM) ∧
    (∀ d dist, Event.createCollectionCall d dist ∈
      (assure_db_collection_sxists st).2 → d = EMBEDDING_DIM) := by
  refine ⟨?_, ?_, ?_, ?_⟩
  · intro t d hmem
    rcases hv : emb text EMBEDDING_DIM with _ | v
    · simp [add_note_to_db, get_embedding, hv] at hmem
      exact hmem.2
    · rcases hu : qdrant_upsert ⟨st.id_counter + 1, v, text⟩ st.index with _ | idx
      · simp [add_note_to_db, get_embedding, hv, hu] at hmem
        exact hmem.2
      · simp [add_note_to_db, get_embedding, hv, hu] at hmem
        exact hmem.2
  · intro t d hmem
    match query with
    | none =>
      rcases hs : qdrant_scroll 10 st.index with _ | pts <;>
        simp [list_notes_from_db, list_notes_scroll, hs] at hmem
    | some q =>
      by_cases hq : q = ""
      · rcases hs : qdrant_scroll 10 st.index with _ | pts <;>
          simp [list_notes_from_db, hq, list_notes_scroll, hs] at hmem
      · rcases hv : emb q EMBEDDING_DIM with _ | v
        · simp [list_notes_from_db, hq, list_notes_search, get_embedding, hv] at hmem
          exact hmem.2
        · rcases hs : qdrant_search sim v 10 st.index with _ | sps
          · simp [list_notes_from_db, hq, list_notes_search, get_embedding,
              hv, hs] at hmem
            exact hmem.2
          · simp [list_notes_from_db, hq, list_notes_search, get_embedding,
              hv, hs] at hmem
            exact hmem.2
  · intro p hmem
    rcases hv : emb text EMBEDDING_DIM with _ | v
    · simp [add_note_to_db, get_embedding, hv] at hmem
    · rcases hu : qdrant_upsert ⟨st.id_counter + 1, v, text⟩ st.index with _ | idx
      · simp [add_note_to_db, get_embedding, hv, hu] at hmem
        rw [hmem]
        exact hcontract text EMBEDDING_DIM v hv
      · simp [add_note_to_db, get_embedding, hv, hu] at hmem
        rw [hmem]
        exact hcontract text EMBEDDING_DIM v hv
  · intro d dist hmem
    by_cases hex : collection_exists st.index <;>
      simp [assure_db_collection_sxists, hex] at hmem
    exact hmem.1

/-- Witness for C10: with the contract-respecting provider `embConst`,
a concrete add, a concrete query listing and a concrete collection
creation all use dimension 3072. -/
theorem embedding_requests_use_collection_dim_witness :
    embedDimsOk (add_note_to_db embConst "hi" ⟨none, 0⟩).2 ∧
    embedDimsOk (list_notes_from_db embConst simZero (some "hi") ⟨none, 0⟩).2 ∧
    (∀ p, Event.upsertCall p ∈ (add_note_to_db embConst "hi" ⟨none, 0⟩).2 →
      p.vector.length = EMBEDDING_DIM) ∧
    (∀ d dist, Event.createCollectionCall d dist ∈
      (assure_db_collection_sxists ⟨none, 0⟩).2 → d = EMBEDDING_DIM) :=
  embedding_requests_use_collection_dim embConst simZero "hi" (some "hi")
    ⟨none, 0⟩
    (fun t d w hw => by
      simp [embConst] at hw
      rw [← hw]
      exact List.length_replicate d 0)

/-- Ten pre-existing points with ids 1..10, all with text "old", for the
C5 counterexample. -/
def pts10 : List PointStruct :=
  (List.range 10).map (fun i => ⟨i + 1, [], "old"⟩)

/-- Extract the note list of a listing result (empty on error). -/
def notesOf (r : Except Err (List NoteView)) : List NoteView :=
  match r with
  | Except.ok l => l
  | Except.error _ => []

/-- Counterexample to claim C5 as stated: with 10 notes already stored,
`add_note_to_db "fresh note"` succeeds, yet the following no-query
`list_notes_from_db` returns 10 notes none of which has the added text —
the 10-item cap of the scroll cuts the new note off. -/
theorem round_trip_counterexample :
    (add_note_to_db embConst "fresh note" ⟨some ⟨3072, Distance.cosine, pts10⟩, 10⟩).1.isOk
      = true ∧
    (notesOf (list_notes_from_db embConst simZero none
        (add_note_run embConst "fresh note"
          ⟨some ⟨3072, Distance.cosine, pts10⟩, 10⟩)).1).length = 10 ∧
    ((notesOf (list_notes_from_db embConst simZero none
        (add_note_run embConst "fresh note"
          ⟨some ⟨3072, Distance.cosine, pts10⟩, 10⟩)).1).all
      (fun n => n.text != "fresh note")) = true := by
  refine ⟨rfl, ?_, ?_⟩ <;> decide

/-- Claim C5 as amended: for every non-empty text, when the collection
holds fewer than 10 points before the add (so the 10-item scroll cap
cannot exclude the new point) and the add succeeds, a following
no-query `list_notes_from_db` includes a note whose text equals the
input. -/
theorem round_trip_small_collection (emb : EmbedFn) (sim : SimFn)
    (text : String) (st : AppState) (c : Collection) (v : List ℚ)
    (_hne : text ≠ "") (hc : st.index = some c)
    (hlen : c.points.length < 10) (hv : emb text EMBEDDING_DIM = some v) :
    ∃ st1 notes,
      (add_note_to_db emb text st).1 = Except.ok st1 ∧
      (list_notes_from_db emb sim none st1).1 = Except.ok notes ∧
      ∃ n ∈ notes, n.text = text := by
  have h := add_note_success emb text st c v hc hv
  set p : PointStruct := ⟨st.id_counter + 1, v, text⟩ with hp
  set pts1 : List PointStruct := upsertPoint c.points p with hpts
  refine ⟨⟨some { c with points := pts1 }, st.id_counter + 1⟩,
    pts1.map (fun q => ⟨q.id, q.payload, none⟩), ?_, ?_, ?_⟩
  · rw [h]
  · have htake : pts1.take 10 = pts1 := by
      apply List.take_of_length_le
      calc pts1.length ≤ c.points.length + 1 := length_upsertPoint_le c.points p
        _ ≤ 10 := hlen
    simp [list_notes_from_db, list_notes_scroll, qdrant_scroll, htake]
  · refine ⟨⟨p.id, p.payload, none⟩, ?_, rfl⟩
    exact List.mem_map.mpr ⟨p, mem_upsertPoint_self c.points p, rfl⟩

/-- Witness for the amended C5: adding "buy milk" to an empty collection
and listing without a query shows the note. -/
theorem round_trip_small_collection_witness :
    ∃ st1 notes,
      (add_note_to_db embConst "buy milk"
        ⟨some ⟨3072, Distance.cosine, []⟩, 0⟩).1 = Except.ok st1 ∧
      (list_notes_from_db embConst simZero none st1).1 = Except.ok notes ∧
      ∃ n ∈ notes, n.text = "buy milk" :=
  round_trip_small_collection embConst simZero "buy milk"
    ⟨some ⟨3072, Distance.cosine, []⟩, 0⟩ ⟨3072, Distance.cosine, []⟩
    (List.replicate 3072 0) (by decide) rfl (by decide) rfl

/-- Claim C6: `ensure_collection` (source: `assure_db_collection_sxists`)
is idempotent: when the collection does not exist it creates it with the
fixed dimension `EMBEDDING_DIM` and cosine distance; when it exists it
changes nothing; running it twice from any state leaves the same state
as running it once. -/
theorem assure_collection_idempotent (st : AppState) :
    (st.index = none →
      (assure_db_collection_sxists st).1 =
        ⟨some ⟨EMBEDDING_DIM, Distance.cosine, []⟩, st.id_counter⟩) ∧
    (st.index.isSome → (assure_db_collection_sxists st).1 = st) ∧
    (assure_db_collection_sxists (assure_db_collection_sxists st).1).1 =
      (assure_db_collection_sxists st).1 := by
  refine ⟨?_, ?_, ?_⟩
  · intro h
    simp [assure_db_collection_sxists, collection_exists, h, create_collection]
  · intro h
    simp [assure_db_collection_sxists, collection_exists, h]
  · rcases h : st.index with _ | c
    · simp [assure_db_collection_sxists, collection_exists, h, create_collection]
    · simp [assure_db_collection_sxists, collection_exists, h]

/-- Witness for C6: at concrete states, a missing collection is created
with dimension 3072 and cosine distance, and an existing one is left
alone. -/
theorem assure_collection_idempotent_witness :
    (assure_db_collection_sxists ⟨none, 0⟩).1 =
      ⟨some ⟨EMBEDDING_DIM, Distance.cosine, []⟩, 0⟩ ∧
    (assure_db_collection_sxists ⟨some ⟨3072, Distance.cosine, []⟩, 5⟩).1 =
      ⟨some ⟨3072, Distance.cosine, []⟩, 5⟩ := by
  constructor
  · exact (assure_collection_idempotent ⟨none, 0⟩).1 rfl
  · exact (assure_collection_idempotent
      ⟨some ⟨3072, Distance.cosine, []⟩, 5⟩).2.1 (by simp)

/-- Claim C7: `delete_note` (source: `remove_note_from_db`) is
idempotent for every id: it removes the note with that id when present,
raises no error when the id is absent, and a second call with the same
id raises no error and leaves the state of the first call unchanged. -/
theorem remove_note_idempotent (st : AppState) (c : Collection) (nid : Nat)
    (h : st.index = some c) :
    ∃ st1,
      (remove_note_from_db nid st).1 = Except.ok st1 ∧
      st1.index = some { c with
        points := c.points.filter (fun p => ¬ [nid].contains p.id) } ∧
      st1.id_counter = st.id_counter ∧
      (remove_note_from_db nid st1).1 = Except.ok st1 := by
  refine ⟨⟨some { c with
      points := c.points.filter (fun p => ¬ [nid].contains p.id) },
      st.id_counter⟩, ?_, rfl, rfl, ?_⟩
  · simp [remove_note_from_db, qdrant_delete, h]
  · simp only [remove_note_from_db, qdrant_delete, Option.map_some]
    simp [List.filter_filter]

/-- Witness for C7: deleting id 1 from a one-note collection empties it,
and deleting again succeeds without change. -/
theorem remove_note_idempotent_witness :
    ∃ st1,
      (remove_note_from_db 1
        ⟨some ⟨3072, Distance.cosine, [⟨1, [], "buy milk"⟩]⟩, 1⟩).1 =
        Except.ok st1 ∧
      st1.index = some ⟨3072, Distance.cosine,
        [⟨1, [], "buy milk"⟩].filter (fun p => ¬ [1].contains p.id)⟩ ∧
      st1.id_counter = 1 ∧
      (remove_note_from_db 1 st1).1 = Except.ok st1 :=
  remove_note_idempotent ⟨some ⟨3072, Distance.cosine, [⟨1, [], "buy milk"⟩]⟩, 1⟩
    ⟨3072, Distance.cosine, [⟨1, [], "buy milk"⟩]⟩ 1 rfl

/-- Claim C8: from any state, `delete_all_notes` (source:
`remove_all_notes_from_db`) drops the entire collection, and the
sequence delete all, ensure collection, list notes returns the empty
sequence. -/
theorem delete_all_then_ensure_then_list_empty (emb : EmbedFn) (sim : SimFn)
    (st : AppState) :
    (remove_all_notes_from_db st).1.index = none ∧
    (list_notes_from_db emb sim none
      (assure_db_collection_sxists (remove_all_notes_from_db st).1).1).1 =
      Except.ok [] := by
  constructor
  · simp [remove_all_notes_from_db, qdrant_delete_collection]
  · simp [remove_all_notes_from_db, qdrant_delete_collection,
      assure_db_collection_sxists, collection_exists, create_collection,
      list_notes_from_db, list_notes_scroll, qdrant_scroll]

/-- Claim C9 (implicit): the id counter is advanced only after a
successful upsert: one call advances it by exactly the success
indicator of that call, and a sequence of calls advances it by exactly
the number of successful adds. -/
theorem id_counter_counts_successes (emb : EmbedFn) (text : String)
    (texts : List String) (st : AppState) :
    (add_note_run emb text st).id_counter =
      st.id_counter + (if (add_note_to_db emb text st).1.isOk then 1 else 0) ∧
    (run_adds emb texts st).1.id_counter =
      st.id_counter + (run_adds emb texts st).2 := by
  refine ⟨add_note_run_counter emb text st, ?_⟩
  induction texts generalizing st with
  | nil => simp [run_adds]
  | cons t ts ih =>
    simp only [run_adds]
    rw [ih (add_note_run emb t st), add_note_run_counter emb t st]
    ring

end AudioNotes
